import Mathlib

/-!
Shallow embedding of the `pr_pirate` discovery pipeline
(`src/pr_pirate/models/*.py`, `src/pr_pirate/discovery/*.py`,
`src/pr_pirate/llm/issue_assessor.py`) and proofs about it.

Conventions of the embedding:
* timestamps are integers counting days (Python `datetime` arithmetic in the
  sources only ever uses `.days` of a difference, so a day-granular clock is
  exact for every function embedded here); `now` is passed explicitly where
  the Python code calls `datetime.now()`;
* Python `float` scores are embedded as exact rationals `ℚ` (the weights
  0.3/0.25/0.2 and score values are decimal literals in the sources);
* the external GitHub API and the external JSON parser (`json.loads`) are
  parameters of the functions that call them; exceptions are `Except`.
-/

namespace PRPirate

/-- GitHub repository record, one-to-one with the fields of
`pr_pirate.models.Repository` (timestamps as day numbers). -/
structure Repository where
  id : Nat
  name : String
  full_name : String
  description : Option String := none
  stars : Nat
  forks : Nat
  language : Option String := none
  topics : List String := []
  license_name : Option String := none
  created_at : Int
  updated_at : Int
  pushed_at : Option Int := none
  open_issues_count : Nat
  has_issues : Bool := true
  archived : Bool := false
  disabled : Bool := false
deriving Repr, DecidableEq

/-- The language set hard-coded in `Repository.is_viable`. -/
def viableLanguages : List String := ["Python", "JavaScript", "TypeScript", "Go", "Rust"]

/-- `Repository.is_viable` (models/repository.py): issues enabled, not
archived/disabled, ≥ 10 stars, > 0 open issues, supported language. -/
def Repository.is_viable (r : Repository) : Bool :=
  r.has_issues && !r.archived && !r.disabled
    && decide (10 ≤ r.stars) && decide (0 < r.open_issues_count)
    && (match r.language with
        | some l => viableLanguages.contains l
        | none => false)

/-- `Repository.activity_score` (models/repository.py): 0 when `pushed_at`
is absent, otherwise a step function of days since last push. -/
def Repository.activity_score (r : Repository) (now : Int) : ℚ :=
  match r.pushed_at with
  | none => 0
  | some t =>
    let days_since_push : Int := now - t
    if days_since_push ≤ 7 then 1
    else if days_since_push ≤ 30 then (8 : ℚ) / 10
    else if days_since_push ≤ 90 then (5 : ℚ) / 10
    else (2 : ℚ) / 10

/-- `RepositoryDiscoverer._is_repository_suitable` (repo_discoverer.py):
issues enabled and not archived/disabled; if `pushed_at` is present it must
be at most 180 days old (the check is skipped when `pushed_at` is `None`);
`open_issues_count` must be non-zero.  Note: no star-count check here. -/
def isRepositorySuitable (now : Int) (r : Repository) : Bool :=
  if !r.has_issues || r.archived || r.disabled then false
  else if (match r.pushed_at with
           | some t => decide (t < now - 180)
           | none => false) then false
  else if r.open_issues_count == 0 then false
  else true

/-- `RepositoryDiscoverer._filter_repositories`: keep the suitable ones. -/
def filterRepositories (now : Int) (rs : List Repository) : List Repository :=
  rs.filter (fun r => isRepositorySuitable now r)

/-- Loop body of `RepositoryDiscoverer._deduplicate_repositories`: walk the
list, keep a record iff its `full_name` has not been seen yet. -/
def deduplicateGo (seen : List String) : List Repository → List Repository
  | [] => []
  | r :: rest =>
    if seen.contains r.full_name then deduplicateGo seen rest
    else r :: deduplicateGo (r.full_name :: seen) rest

/-- `RepositoryDiscoverer._deduplicate_repositories`. -/
def deduplicateRepositories (rs : List Repository) : List Repository :=
  deduplicateGo [] rs

/-- The per-repository ranking key of
`RepositoryDiscoverer.get_top_repositories`:
`stars * activity_score * min(open_issues_count / max(stars, 1), 1.0)`. -/
def repoPriorityScore (now : Int) (r : Repository) : ℚ :=
  let issue_density : ℚ := (r.open_issues_count : ℚ) / (max r.stars 1 : ℚ)
  (r.stars : ℚ) * r.activity_score now * min issue_density 1

/-- Generic stable-enough descending insertion by a rational key, used to
embed Python `sorted(..., key=..., reverse=True)` where only the multiset
and the key-ordering of the result matter. -/
def insertDescBy {α : Type} (f : α → ℚ) (x : α) : List α → List α
  | [] => [x]
  | y :: ys => if f y < f x then x :: y :: ys else y :: insertDescBy f x ys

/-- Descending sort by a rational key. -/
def sortDescBy {α : Type} (f : α → ℚ) : List α → List α
  | [] => []
  | x :: xs => insertDescBy f x (sortDescBy f xs)

/-- `RepositoryDiscoverer.get_top_repositories`: sort the discovered
repositories by `repoPriorityScore` descending and take `limit`. -/
def getTopRepositories (now : Int) (discovered : List Repository) (limit : Nat) :
    List Repository :=
  (sortDescBy (repoPriorityScore now) discovered).take limit

/-- `RepositoryDiscoverer.get_repositories_by_names` passes every
successfully fetched record through `_filter_repositories`; its output is
the filtered fetched list. -/
def getRepositoriesByNames (now : Int) (fetched : List Repository) : List Repository :=
  filterRepositories now fetched

/-- GitHub issue record, one-to-one with the data fields of
`pr_pirate.models.Issue` (timestamps as day numbers). -/
structure Issue where
  id : Nat
  number : Nat
  title : String
  body : Option String := none
  state : String
  labels : List String := []
  assignee : Option String := none
  assignees : List String := []
  comments : Nat
  created_at : Int
  updated_at : Int
  author_association : String := "NONE"
  repo_id : Nat
  repo_full_name : String
deriving Repr, DecidableEq

/-- Python `str.lower()` restricted to what `Char.toLower` covers (ASCII is
all the sources compare). -/
def pyLower (s : String) : String := ⟨s.data.map Char.toLower⟩

/-- Good-label set of `Issue.is_good_candidate` (models/issue.py). -/
def goodCandidateLabels : List String :=
  ["good first issue", "good-first-issue", "beginner", "easy", "bug",
   "enhancement", "feature", "help wanted"]

/-- Bad-label set of `Issue.is_good_candidate` (models/issue.py). -/
def badCandidateLabels : List String :=
  ["wontfix", "invalid", "duplicate", "question", "discussion",
   "needs-design", "breaking-change"]

/-- `Issue.is_good_candidate` (models/issue.py): open, unassigned, at least
one good label, no bad label, ≤ 10 comments, non-empty title, body absent
or ≥ 50 characters.  Labels are lowercased before the set comparisons. -/
def Issue.is_good_candidate (i : Issue) : Bool :=
  let issue_labels := i.labels.map pyLower
  i.state == "open"
    && i.assignees.isEmpty
    && issue_labels.any (fun l => goodCandidateLabels.contains l)
    && !issue_labels.any (fun l => badCandidateLabels.contains l)
    && decide (i.comments ≤ 10)
    && !(i.title == "")
    && (match i.body with
        | some b => decide (50 ≤ b.length)
        | none => true)

/-- `Issue.age_days` (models/issue.py): days between `created_at` and now. -/
def Issue.age_days (i : Issue) (now : Int) : Int := now - i.created_at

/-- `Issue.priority_score` (models/issue.py): 0.5 base, label bonus, age
bonus, comment-activity adjustment, clamped to [0,1]. -/
def Issue.priority_score (i : Issue) (now : Int) : ℚ :=
  let issue_labels := i.labels.map pyLower
  let score : ℚ := 1 / 2
  let score : ℚ :=
    if issue_labels.any (fun l => (["bug", "critical", "urgent"] : List String).contains l) then
      score + 3 / 10
    else if issue_labels.any
        (fun l => (["enhancement", "feature", "good first issue"] : List String).contains l) then
      score + 2 / 10
    else score
  let score : ℚ :=
    if i.age_days now ≤ 7 then score + 1 / 10
    else if i.age_days now ≤ 30 then score + 1 / 20
    else score
  let score : ℚ :=
    if 1 ≤ i.comments && i.comments ≤ 3 then score + 1 / 10
    else if 10 < i.comments then score - 2 / 10
    else score
  min 1 (max 0 score)

/-- Errors raised by the upstream GitHub library: the rate-limit exception
(`RateLimitExceededException`) versus everything else. -/
inductive ApiError where
  | rateLimited
  | other (msg : String)
deriving Repr, DecidableEq

/-- A raw issue record as yielded by the upstream API, before
`GitHubClient.get_repository_issues` converts it: same fields plus the
pull-request marker the client uses to skip PRs. -/
structure ApiIssue where
  id : Nat
  number : Nat
  title : String
  body : Option String := none
  state : String
  labels : List String := []
  assignee : Option String := none
  assignees : List String := []
  comments : Nat
  created_at : Int
  updated_at : Int
  author_association : String := "NONE"
  is_pull_request : Bool := false
deriving Repr, DecidableEq

/-- The dictionary `GitHubClient.get_repository_issues` builds from one raw
issue, stamped with the repository id and full name. -/
def ApiIssue.toIssue (a : ApiIssue) (repoId : Nat) (repoFullName : String) : Issue :=
  { id := a.id, number := a.number, title := a.title, body := a.body,
    state := a.state, labels := a.labels, assignee := a.assignee,
    assignees := a.assignees, comments := a.comments,
    created_at := a.created_at, updated_at := a.updated_at,
    author_association := a.author_association,
    repo_id := repoId, repo_full_name := repoFullName }

/-- `GitHubClient.get_repository_issues` (github_client.py).  `fetchIssues`
models `repo.get_issues(state=state)` for the addressed repository (it may
raise).  The `labelsArg` parameter is accepted but — exactly as in the
source — never read.  Raw records are walked in order: pull requests are
skipped, at most `per_page` records are converted.  A rate-limit error
propagates (after the retry decorator gives up); any other exception is
caught and the function returns the empty list. -/
def getRepositoryIssues (repoId : Nat)
    (fetchIssues : String → Except ApiError (List ApiIssue))
    (repo_full_name st : String) (labelsArg : Option (List String))
    (per_page : Nat) : Except ApiError (List Issue) :=
  match fetchIssues st with
  | .error .rateLimited => .error .rateLimited
  | .error (.other _) => .ok []
  | .ok stream =>
      .ok (((stream.filter (fun a => !a.is_pull_request)).take per_page).map
        (fun a => a.toIssue repoId repo_full_name))

/-- `GitHubClient.search_repositories` (github_client.py).  `fetch` models
the upstream search call; the loop truncates the result stream to
`per_page` records.  Both the rate-limit and the generic `except` branch
re-raise, so every error propagates to the caller. -/
def searchRepositories (fetch : Except ApiError (List Repository))
    (query sortBy orderBy : String) (per_page : Nat) :
    Except ApiError (List Repository) :=
  match fetch with
  | .error e => .error e
  | .ok stream => .ok (stream.take per_page)

/-- `xs` starts with `pre` (character-list version of Python `startswith`,
used only to build the substring test below). -/
def leadsWith : List Char → List Char → Bool
  | [], _ => true
  | _ :: _, [] => false
  | a :: as, b :: bs => a == b && leadsWith as bs

/-- `needle` occurs contiguously inside `hay` — Python's `needle in hay`
for strings, on character lists. -/
def containsSub (needle : List Char) : List Char → Bool
  | [] => needle.isEmpty
  | c :: rest => leadsWith needle (c :: rest) || containsSub needle rest

/-- Python `needle in hay` for strings. -/
def strContains (hay needle : String) : Bool := containsSub needle.data hay.data

/-- `IssueDiscoverer._get_label_batches` (issue_discoverer.py). -/
def labelBatches : List (List String) :=
  [["good first issue"], ["good-first-issue"], ["bug"], ["enhancement"],
   ["help wanted"], ["beginner", "easy"]]

/-- The label-batch loop of `IssueDiscoverer._get_repository_issues`:
one query per batch, stopping once `max_issues` are collected, each query
asking for `max_issues - len(issues)` records; a failed query is caught
and skipped.  `client lbls n` models
`github.get_repository_issues(repo_full_name, "open", lbls, n)`.
No deduplication happens here: every fetched record is appended. -/
def labelBatchLoop (client : Option (List String) → Nat → Except ApiError (List Issue))
    (max_issues : Nat) : List (List String) → List Issue → List Issue
  | [], issues => issues
  | batch :: rest, issues =>
    if max_issues ≤ issues.length then issues
    else
      match client (some batch) (max_issues - issues.length) with
      | .ok fetched => labelBatchLoop client max_issues rest (issues ++ fetched)
      | .error _ => labelBatchLoop client max_issues rest issues

/-- The trailing unlabeled query of
`IssueDiscoverer._get_repository_issues`: if the cap is not reached and
`include_unlabeled`, fetch the remainder with no label filter and append
only records whose id is not among the ids already collected. -/
def unlabeledStep (client : Option (List String) → Nat → Except ApiError (List Issue))
    (max_issues : Nat) (include_unlabeled : Bool) (issues : List Issue) : List Issue :=
  if issues.length < max_issues && include_unlabeled then
    match client none (max_issues - issues.length) with
    | .ok fetched =>
        let existing_ids := issues.map Issue.id
        issues ++ fetched.filter (fun i => !existing_ids.contains i.id)
    | .error _ => issues
  else issues

/-- `IssueDiscoverer._get_repository_issues`: the label-batch loop followed
by the optional unlabeled query. -/
def getRepositoryIssuesForRepo
    (client : Option (List String) → Nat → Except ApiError (List Issue))
    (max_issues : Nat) (include_unlabeled : Bool) : List Issue :=
  unlabeledStep client max_issues include_unlabeled
    (labelBatchLoop client max_issues labelBatches [])

/-- The meta/process keywords of `IssueDiscoverer._is_issue_suitable`. -/
def badKeywords : List String :=
  ["design", "discuss", "rfc", "proposal", "breaking", "major refactor",
   "architecture", "backwards compatibility"]

/-- `IssueDiscoverer._is_issue_suitable`: good candidate, age in [1,365],
title ≥ 10 chars, body (when present) ≥ 20 chars, and no meta/process
keyword in the lowercased concatenation of title and body. -/
def isIssueSuitable (now : Int) (i : Issue) : Bool :=
  if !i.is_good_candidate then false
  else if decide (365 < i.age_days now) then false
  else if decide (i.age_days now < 1) then false
  else if decide (i.title.length < 10) then false
  else if (match i.body with
           | some b => decide (b.length < 20)
           | none => false) then false
  else if badKeywords.any
      (fun kw => strContains (pyLower (i.title ++ " " ++ i.body.getD "")) kw) then false
  else true

/-- `IssueDiscoverer._filter_and_prioritize_issues`: keep the suitable
issues and sort them by `priority_score` descending. -/
def filterAndPrioritizeIssues (now : Int) (issues : List Issue) : List Issue :=
  sortDescBy (fun i => i.priority_score now) (issues.filter (fun i => isIssueSuitable now i))

/-- The concrete per-repository client `IssueDiscoverer` talks to: the
embedded `GitHubClient.get_repository_issues` addressed at `name`, where
`streams name st` models the upstream issue stream for that repository and
state, and `repoIds name` its repository id. -/
def pipelineClient (streams : String → String → Except ApiError (List ApiIssue))
    (repoIds : String → Nat) (name : String) :
    Option (List String) → Nat → Except ApiError (List Issue) :=
  fun lbls perPage => getRepositoryIssues (repoIds name) (streams name) name "open" lbls perPage

/-- `IssueDiscoverer.discover_issues` over the embedded GitHub client:
collect per repository (failures per repository are caught; the model has
none), concatenate, then filter and sort. -/
def discoverIssues (streams : String → String → Except ApiError (List ApiIssue))
    (repoIds : String → Nat) (repos : List Repository)
    (max_issues_per_repo : Nat) (include_unlabeled : Bool) (now : Int) : List Issue :=
  filterAndPrioritizeIssues now
    (repos.flatMap (fun r =>
      getRepositoryIssuesForRepo (pipelineClient streams repoIds r.full_name)
        max_issues_per_repo include_unlabeled))

/-- LLM assessment record, one-to-one with the fields of
`pr_pirate.models.Assessment` (floats as exact rationals; the
`assessed_at` timestamp is omitted — nothing reads it). -/
structure Assessment where
  issue_id : Nat
  issue_number : Nat
  repo_full_name : String
  complexity_score : ℚ
  clarity_score : ℚ
  scope_score : ℚ
  feasibility_score : ℚ
  overall_score : ℚ
  is_doable : Bool
  confidence : ℚ
  reasoning : String
  estimated_effort_hours : Option ℚ := none
  required_skills : List String := []
  potential_risks : List String := []
  model_used : String := "claude-3-sonnet"
  assessment_version : String := "1.0"
deriving Repr, DecidableEq

/-- `Assessment.composite_score` (models/assessment.py):
`0.3*feasibility + 0.25*clarity + 0.25*(11 - complexity) + 0.2*scope`. -/
def Assessment.composite_score (a : Assessment) : ℚ :=
  (3 : ℚ) / 10 * a.feasibility_score
    + (25 : ℚ) / 100 * a.clarity_score
    + (25 : ℚ) / 100 * (11 - a.complexity_score)
    + (2 : ℚ) / 10 * a.scope_score

/-- Python `str.find(ch)`: index of the first occurrence, `-1` if absent. -/
def pyFind (s : List Char) (c : Char) : Int :=
  match s.findIdx? (fun x => x == c) with
  | some n => n
  | none => -1

/-- Python `str.rfind(ch)`: index of the last occurrence, `-1` if absent. -/
def pyRfind (s : List Char) (c : Char) : Int :=
  match s.reverse.findIdx? (fun x => x == c) with
  | some n => (s.length : Int) - 1 - n
  | none => -1

/-- Normalise a Python slice endpoint against a length: negative indices
count from the end, then both are clamped into `[0, len]`. -/
def pySliceNorm (len : Nat) (i : Int) : Nat :=
  if i < 0 then (max ((len : Int) + i) 0).toNat else min i.toNat len

/-- Python `s[a:b]` (step 1) on character lists. -/
def pySlice (s : List Char) (a b : Int) : List Char :=
  (s.take (pySliceNorm s.length b)).drop (pySliceNorm s.length a)

/-- A parsed JSON value (what `json.loads` yields). -/
inductive Json where
  | num (q : ℚ)
  | str (s : String)
  | boolean (b : Bool)
  | null
  | arr (xs : List Json)
  | obj (fields : List (String × Json))

/-- Pydantic's numeric read of a JSON value (ints and floats). -/
def jsonNum : Json → Option ℚ
  | .num q => some q
  | _ => none

/-- Pydantic's boolean read of a JSON value. -/
def jsonBool : Json → Option Bool
  | .boolean b => some b
  | _ => none

/-- Pydantic's string read of a JSON value. -/
def jsonStr : Json → Option String
  | .str s => some s
  | _ => none

/-- Pydantic's `list[str]` read of a JSON value. -/
def jsonStrList : Json → Option (List String)
  | .arr xs =>
    xs.foldr
      (fun x acc =>
        match x, acc with
        | .str s, some l => some (s :: l)
        | _, _ => none)
      (some [])
  | _ => none

/-- `Optional[float]` read for `estimated_effort_hours`: key absent or JSON
null means `None`; a number is kept; anything else fails validation. -/
def jsonOptNum : Option Json → Option (Option ℚ)
  | none => some none
  | some (.num q) => some (some q)
  | some .null => some none
  | some _ => none

/-- The `Field(ge=1, le=10)` bound on the score fields of `Assessment`. -/
def scoreInRange (q : ℚ) : Bool := 1 ≤ q && q ≤ 10

/-- The fallback `Assessment` built in the `except` branch of
`IssueAssessor._parse_assessment_response`. -/
def fallbackAssessment (issue : Issue) : Assessment :=
  { issue_id := issue.id, issue_number := issue.number,
    repo_full_name := issue.repo_full_name,
    complexity_score := 5, clarity_score := 5, scope_score := 5,
    feasibility_score := 5, overall_score := 5, is_doable := true,
    confidence := 1 / 2, reasoning := "Could not parse detailed assessment",
    model_used := "fallback" }

/-- `IssueAssessor._parse_assessment_response` (llm/issue_assessor.py).
`loads` models `json.loads` on the slice between the first `{` and the
last `}` of the reply: `none` is `json.JSONDecodeError`, `some fields` a
parsed JSON object.  A decode error or a missing required key (`KeyError`)
is caught and yields the fallback assessment; a pydantic validation
failure while constructing the `Assessment` is NOT caught and propagates
as `.error`.  `modelName` is `"claude-3-5-sonnet"` or `"gpt-4"` depending
on which client is configured. -/
def parseAssessmentResponse (loads : String → Option (List (String × Json)))
    (modelName : String) (issue : Issue) (response : String) :
    Except String Assessment :=
  let start := pyFind response.data '{'
  let stop := pyRfind response.data '}' + 1
  let json_str : String := ⟨pySlice response.data start stop⟩
  match loads json_str with
  | none => .ok (fallbackAssessment issue)
  | some data =>
    match data.lookup "complexity_score", data.lookup "clarity_score",
        data.lookup "scope_score", data.lookup "feasibility_score",
        data.lookup "overall_score", data.lookup "is_doable",
        data.lookup "confidence", data.lookup "reasoning" with
    | some cJ, some clJ, some scJ, some feJ, some ovJ, some doJ, some cfJ, some reJ =>
      (match jsonNum cJ, jsonNum clJ, jsonNum scJ, jsonNum feJ, jsonNum ovJ,
          jsonBool doJ, jsonNum cfJ, jsonStr reJ,
          jsonOptNum (data.lookup "estimated_effort_hours"),
          jsonStrList ((data.lookup "required_skills").getD (.arr [])),
          jsonStrList ((data.lookup "potential_risks").getD (.arr [])) with
      | some c, some cl, some sc, some fe, some ov, some doable, some conf,
          some reason, some eff, some skills, some risks =>
        if scoreInRange c && scoreInRange cl && scoreInRange sc
            && scoreInRange fe && scoreInRange ov
            && (decide ((0 : ℚ) ≤ conf) && decide (conf ≤ 1)) then
          .ok { issue_id := issue.id, issue_number := issue.number,
                repo_full_name := issue.repo_full_name,
                complexity_score := c, clarity_score := cl, scope_score := sc,
                feasibility_score := fe, overall_score := ov,
                is_doable := doable, confidence := conf, reasoning := reason,
                estimated_effort_hours := eff, required_skills := skills,
                potential_risks := risks, model_used := modelName }
        else .error "ValidationError"
      | _, _, _, _, _, _, _, _, _, _, _ => .error "ValidationError")
    | _, _, _, _, _, _, _, _ => .ok (fallbackAssessment issue)

/-! ### Concrete sample inputs used by witnesses and counterexamples -/

/-- A raw API issue used in concrete runs: open, labelled `bug`,
unassigned, lightly discussed, created 10 days before the sample clock. -/
def apiIssue1 : ApiIssue :=
  { id := 1, number := 11, title := "Fix crash when saving", body := none,
    state := "open", labels := ["bug"], assignees := [], comments := 2,
    created_at := 90, updated_at := 95 }

/-- A sample repository: 50 stars, 3 open issues, pushed 5 days before the
sample clock `now = 100`. -/
def repoA : Repository :=
  { id := 3, name := "widgets", full_name := "acme/widgets", stars := 50,
    forks := 2, created_at := 0, updated_at := 95, pushed_at := some 95,
    open_issues_count := 3 }

/-- An upstream issue feed that always yields `apiIssue1`. -/
def streams0 : String → String → Except ApiError (List ApiIssue) :=
  fun _ _ => .ok [apiIssue1]

/-- Upstream repository ids for the sample runs. -/
def repoIds0 : String → Nat := fun _ => 7

/-- The sample issue as converted by the client for `repoA`. -/
def issue1 : Issue := apiIssue1.toIssue 7 "acme/widgets"

/-- A repository that passes every check of
`RepositoryDiscoverer._is_repository_suitable` but has only 5 stars. -/
def lowStarRepo : Repository :=
  { id := 4, name := "tiny", full_name := "acme/tiny", stars := 5,
    forks := 0, created_at := 0, updated_at := 95, pushed_at := some 95,
    open_issues_count := 2 }

/-- A repository whose `pushed_at` is absent and that passes every other
check of `RepositoryDiscoverer._is_repository_suitable`. -/
def noPushRepo : Repository :=
  { id := 5, name := "ghost", full_name := "acme/ghost", stars := 40,
    forks := 0, created_at := 0, updated_at := 0, pushed_at := none,
    open_issues_count := 2 }

/-! ### C3 — `get_repository_issues` is independent of its `labels` argument -/

/-- C3: for every repository id, upstream feed, repository name, state and
page size, `GitHubClient.get_repository_issues` returns the same sequence
of issue records for any two values of the `labels` argument — the
parameter is accepted but never read (the source fetches
`repo.get_issues(state=state)` and never filters by label). -/
theorem getRepositoryIssues_ignores_labels
    (repoId : Nat) (fetchIssues : String → Except ApiError (List ApiIssue))
    (repo_full_name st : String) (L1 L2 : Option (List String)) (per_page : Nat) :
    getRepositoryIssues repoId fetchIssues repo_full_name st L1 per_page
      = getRepositoryIssues repoId fetchIssues repo_full_name st L2 per_page := rfl

/-! ### C10 — non-rate-limit errors: issues swallowed, search re-raised -/

/-- C10: when the upstream call raises a non-rate-limit exception,
`GitHubClient.get_repository_issues` catches it and returns the empty
sequence, while `GitHubClient.search_repositories` re-raises it to the
caller. -/
theorem nonRateLimit_error_asymmetry (m : String) (repoId : Nat)
    (repo_full_name st query sortBy orderBy : String)
    (lbls : Option (List String)) (p q : Nat) :
    getRepositoryIssues repoId (fun _ => .error (.other m)) repo_full_name st lbls p
        = .ok []
      ∧ searchRepositories (.error (.other m)) query sortBy orderBy q
        = .error (.other m) :=
  ⟨rfl, rfl⟩

/-! ### C5 — composite score formula and bounds -/

/-- C5: for an `Assessment` whose four sub-scores lie in [1,10],
`composite_score` is the weighted sum
`0.30*feasibility + 0.25*clarity + 0.25*(11 - complexity) + 0.20*scope`
and lies in [1,10]. -/
theorem composite_score_formula_and_bound (a : Assessment)
    (hc1 : 1 ≤ a.complexity_score) (hc2 : a.complexity_score ≤ 10)
    (hl1 : 1 ≤ a.clarity_score) (hl2 : a.clarity_score ≤ 10)
    (hs1 : 1 ≤ a.scope_score) (hs2 : a.scope_score ≤ 10)
    (hf1 : 1 ≤ a.feasibility_score) (hf2 : a.feasibility_score ≤ 10) :
    a.composite_score
        = (3 : ℚ) / 10 * a.feasibility_score + (25 : ℚ) / 100 * a.clarity_score
          + (25 : ℚ) / 100 * (11 - a.complexity_score)
          + (2 : ℚ) / 10 * a.scope_score
      ∧ 1 ≤ a.composite_score ∧ a.composite_score ≤ 10 := by
  refine ⟨rfl, ?_, ?_⟩ <;>
    simp only [Assessment.composite_score] <;> linarith

/-- Witness for C5 at the concrete assessment with all sub-scores 5. -/
theorem composite_score_formula_and_bound_witness :
    1 ≤ (fallbackAssessment issue1).composite_score
      ∧ (fallbackAssessment issue1).composite_score ≤ 10 :=
  (composite_score_formula_and_bound (fallbackAssessment issue1)
    (by norm_num [fallbackAssessment]) (by norm_num [fallbackAssessment])
    (by norm_num [fallbackAssessment]) (by norm_num [fallbackAssessment])
    (by norm_num [fallbackAssessment]) (by norm_num [fallbackAssessment])
    (by norm_num [fallbackAssessment]) (by norm_num [fallbackAssessment])).2

/-! ### C6 — unparseable LLM replies degrade to the fallback assessment -/

/-- C6: whenever `json.loads` fails on the slice the parser extracts
(between the first `{` and the last `}` of the reply — in particular for
any reply containing no parseable JSON object, such as a plain non-JSON
string), `_parse_assessment_response` returns — rather than raising, so
the issue is not dropped — the fallback `Assessment` with all four
sub-scores and the overall score 5.0, confidence 0.5, reasoning
"Could not parse detailed assessment" and `model_used = "fallback"`. -/
theorem parse_unparseable_yields_fallback
    (loads : String → Option (List (String × Json))) (modelName : String)
    (issue : Issue) (response : String)
    (h : loads ⟨pySlice response.data (pyFind response.data '{')
          (pyRfind response.data '}' + 1)⟩ = none) :
    parseAssessmentResponse loads modelName issue response
        = .ok (fallbackAssessment issue)
      ∧ (fallbackAssessment issue).complexity_score = 5
      ∧ (fallbackAssessment issue).clarity_score = 5
      ∧ (fallbackAssessment issue).scope_score = 5
      ∧ (fallbackAssessment issue).feasibility_score = 5
      ∧ (fallbackAssessment issue).overall_score = 5
      ∧ (fallbackAssessment issue).confidence = 1 / 2
      ∧ (fallbackAssessment issue).reasoning = "Could not parse detailed assessment"
      ∧ (fallbackAssessment issue).model_used = "fallback" := by
  refine ⟨?_, rfl, rfl, rfl, rfl, rfl, rfl, rfl, rfl⟩
  simp only [parseAssessmentResponse]
  rw [h]

/-- Witness for C6: a reply with no JSON at all, under a `loads` that
parses nothing. -/
theorem parse_unparseable_yields_fallback_witness :
    parseAssessmentResponse (fun _ => none) "gpt-4" issue1 "no json here"
        = .ok (fallbackAssessment issue1)
      ∧ (fallbackAssessment issue1).complexity_score = 5
      ∧ (fallbackAssessment issue1).clarity_score = 5
      ∧ (fallbackAssessment issue1).scope_score = 5
      ∧ (fallbackAssessment issue1).feasibility_score = 5
      ∧ (fallbackAssessment issue1).overall_score = 5
      ∧ (fallbackAssessment issue1).confidence = 1 / 2
      ∧ (fallbackAssessment issue1).reasoning = "Could not parse detailed assessment"
      ∧ (fallbackAssessment issue1).model_used = "fallback" :=
  parse_unparseable_yields_fallback (fun _ => none) "gpt-4" issue1 "no json here" rfl

/-! ### C1 — the discovery filter has no star-count check -/

/-- C1 counterexample: `lowStarRepo` has 5 stars (< 10) yet survives the
suitability filter and appears in the output of
`get_repositories_by_names` — the claim "stars<10 is always excluded" is
false of `_is_repository_suitable`, which never reads `stars`. -/
theorem filter_keeps_low_star_repo :
    lowStarRepo.stars < 10
      ∧ getRepositoriesByNames 100 [lowStarRepo] = [lowStarRepo]
      ∧ filterRepositories 100 [lowStarRepo] = [lowStarRepo] := by decide

/-- C1 amended: the discovery filter excludes exactly the repositories
with `has_issues=false` or `archived=true` or `disabled=true` or
`open_issues_count=0` (plus the staleness check of C2); every record in
the filtered output satisfies all of these, but no star-count condition
is enforced. -/
theorem filter_output_basic_checks (now : Int) (rs : List Repository)
    (r : Repository) (h : r ∈ filterRepositories now rs) :
    r.has_issues = true ∧ r.archived = false ∧ r.disabled = false
      ∧ r.open_issues_count ≠ 0 := by
  simp only [filterRepositories, List.mem_filter] at h
  obtain ⟨-, hs⟩ := h
  unfold isRepositorySuitable at hs
  split_ifs at hs with h1 h2 h3
  have h1' : r.has_issues = true ∧ r.archived = false ∧ r.disabled = false := by
    cases hh : r.has_issues <;> cases ha : r.archived <;>
      cases hd : r.disabled <;> simp_all
  exact ⟨h1'.1, h1'.2.1, h1'.2.2, fun hc => h3 (by simp [hc])⟩

/-- Witness for the amended C1 at a concrete filtered output. -/
theorem filter_output_basic_checks_witness :
    lowStarRepo.has_issues = true ∧ lowStarRepo.archived = false
      ∧ lowStarRepo.disabled = false ∧ lowStarRepo.open_issues_count ≠ 0 :=
  filter_output_basic_checks 100 [lowStarRepo] lowStarRepo (by decide)

/-! ### C2 — an absent `pushed_at` is exempted from the freshness check -/

/-- C2 counterexample: `noPushRepo` has `pushed_at = None` yet passes
`_is_repository_suitable` and appears in the filtered output (clock
`now = 1000`, far beyond any 180-day window) — the claim that an absent
`pushed_at` fails the freshness check is false: the source only runs the
check under `if repo.pushed_at:`. -/
theorem filter_keeps_absent_pushed_at :
    noPushRepo.pushed_at = none
      ∧ filterRepositories 1000 [noPushRepo] = [noPushRepo] := by decide

/-- C2 amended: when `pushed_at` is absent the freshness check is skipped
(the repository is kept whenever the remaining checks pass), whereas a
repository last pushed more than 180 days ago is dropped. -/
theorem absent_pushed_at_skips_freshness :
    (∀ (now : Int) (r : Repository), r.pushed_at = none →
        isRepositorySuitable now r
          = (r.has_issues && !r.archived && !r.disabled
              && !(r.open_issues_count == 0)))
      ∧ ∀ (now t : Int) (r : Repository), r.pushed_at = some t →
          t < now - 180 → isRepositorySuitable now r = false := by
  constructor
  · intro now r h
    simp only [isRepositorySuitable, h]
    cases hh : r.has_issues <;> cases ha : r.archived <;>
      cases hd : r.disabled <;> cases hc : r.open_issues_count == 0 <;>
      simp [hh, ha, hd, hc]
  · intro now t r h ht
    simp only [isRepositorySuitable, h]
    split_ifs with h1 h2 <;> simp_all

/-- Witness for the amended C2 at concrete repositories. -/
theorem absent_pushed_at_skips_freshness_witness :
    isRepositorySuitable 0 noPushRepo
        = (noPushRepo.has_issues && !noPushRepo.archived && !noPushRepo.disabled
            && !(noPushRepo.open_issues_count == 0))
      ∧ isRepositorySuitable 1000 { repoA with pushed_at := some 0 } = false :=
  ⟨absent_pushed_at_skips_freshness.1 0 noPushRepo rfl,
   absent_pushed_at_skips_freshness.2 1000 0 { repoA with pushed_at := some 0 }
     rfl (by norm_num)⟩

/-! ### C7 — deduplication by `full_name`, first occurrence wins -/

/-- The dedup loop output is a sublist of its input (relative order kept). -/
lemma deduplicateGo_sublist :
    ∀ (rs : List Repository) (seen : List String),
      List.Sublist (deduplicateGo seen rs) rs
  | [], _ => List.Sublist.slnil
  | r :: rest, seen => by
    unfold deduplicateGo
    split
    · exact (deduplicateGo_sublist rest seen).cons r
    · exact (deduplicateGo_sublist rest (r.full_name :: seen)).cons₂ r

/-- Any name in the dedup-loop output was not in `seen` and comes from the
input. -/
lemma mem_deduplicateGo_names :
    ∀ (rs : List Repository) (seen : List String) (n : String),
      n ∈ (deduplicateGo seen rs).map Repository.full_name →
        n ∉ seen ∧ n ∈ rs.map Repository.full_name := by
  intro rs
  induction rs with
  | nil => intro seen n h; simp [deduplicateGo] at h
  | cons r rest ih =>
    intro seen n h
    unfold deduplicateGo at h
    split at h
    next hc =>
      obtain ⟨hns, hmem⟩ := ih seen n h
      exact ⟨hns, by simp [hmem]⟩
    next hc =>
      rw [List.map_cons] at h
      rcases List.mem_cons.mp h with hEq | hTail
      · subst hEq
        refine ⟨fun hmem => hc ?_, by simp⟩
        simpa using hmem
      · obtain ⟨hns, hmem⟩ := ih (r.full_name :: seen) n hTail
        exact ⟨fun hs => hns (List.mem_cons_of_mem _ hs), by simp [hmem]⟩

/-- The dedup-loop output has pairwise distinct names. -/
lemma deduplicateGo_names_nodup :
    ∀ (rs : List Repository) (seen : List String),
      ((deduplicateGo seen rs).map Repository.full_name).Nodup := by
  intro rs
  induction rs with
  | nil => intro seen; simp [deduplicateGo]
  | cons r rest ih =>
    intro seen
    unfold deduplicateGo
    split
    · exact ih seen
    · rw [List.map_cons]
      refine List.nodup_cons.mpr ⟨fun hmem => ?_, ih _⟩
      exact (mem_deduplicateGo_names rest (r.full_name :: seen) r.full_name hmem).1
        (List.mem_cons_self _ _)

/-- For any name not yet seen, the first matching record in the dedup-loop
output is the first matching record of the input. -/
lemma deduplicateGo_find? :
    ∀ (rs : List Repository) (seen : List String) (n : String), n ∉ seen →
      (deduplicateGo seen rs).find? (fun r => r.full_name == n)
        = rs.find? (fun r => r.full_name == n) := by
  intro rs
  induction rs with
  | nil => intro seen n _; rfl
  | cons r rest ih =>
    intro seen n hn
    unfold deduplicateGo
    split
    next hc =>
      have hne : (r.full_name == n) = false := by
        rw [beq_eq_false_iff_ne]
        intro hEq
        exact hn (hEq ▸ List.elem_iff.mp hc)
      rw [List.find?_cons, hne]
      exact ih seen n hn
    next hc =>
      by_cases hb : (r.full_name == n) = true
      · rw [List.find?_cons, List.find?_cons, hb]
      · rw [Bool.not_eq_true] at hb
        rw [List.find?_cons, List.find?_cons, hb]
        refine ih (r.full_name :: seen) n (fun hmem => ?_)
        rcases List.mem_cons.mp hmem with hEq | hs
        · exact (beq_eq_false_iff_ne.mp hb) hEq.symm
        · exact hn hs

/-- C7: `_deduplicate_repositories` keeps a sublist of its input (so the
relative order of kept records is preserved), its output names are
pairwise distinct (each `full_name` appears at most once), every input
`full_name` is still present (so each appears exactly once), and for every
name the kept record is the first record with that name in input order. -/
theorem deduplicate_first_occurrence_wins (rs : List Repository) :
    List.Sublist (deduplicateRepositories rs) rs
      ∧ ((deduplicateRepositories rs).map Repository.full_name).Nodup
      ∧ (∀ n, n ∈ rs.map Repository.full_name →
            n ∈ (deduplicateRepositories rs).map Repository.full_name)
      ∧ ∀ n, (deduplicateRepositories rs).find? (fun r => r.full_name == n)
            = rs.find? (fun r => r.full_name == n) := by
  have hfind : ∀ n, (deduplicateRepositories rs).find? (fun r => r.full_name == n)
      = rs.find? (fun r => r.full_name == n) :=
    fun n => deduplicateGo_find? rs [] n (by simp)
  refine ⟨deduplicateGo_sublist rs [], deduplicateGo_names_nodup rs [], ?_, hfind⟩
  intro n hmem
  obtain ⟨r, hr, hrn⟩ := List.mem_map.mp hmem
  have hsome : (rs.find? (fun r => r.full_name == n)).isSome :=
    List.find?_isSome.mpr ⟨r, hr, beq_iff_eq.mpr hrn⟩
  rw [← hfind n] at hsome
  obtain ⟨r', hr'⟩ := Option.isSome_iff_exists.mp hsome
  have hp := List.find?_some hr'
  exact List.mem_map.mpr ⟨r', List.mem_of_find?_eq_some hr', beq_iff_eq.mp hp⟩

/-- Witness for C7: with a duplicated `full_name` in the input, the name is
still present in the deduplicated output. -/
theorem deduplicate_first_occurrence_wins_witness :
    "acme/widgets" ∈ (deduplicateRepositories
        [repoA, { repoA with id := 99, stars := 999 }]).map Repository.full_name :=
  (deduplicate_first_occurrence_wins
      [repoA, { repoA with id := 99, stars := 999 }]).2.2.1
    "acme/widgets" (by decide)

/-! ### C8 — a more recent push never lowers the priority score -/

/-- The activity step function is antitone in days-since-push: a later
`pushed_at` gives an activity score at least as large. -/
lemma activity_score_antitone (r : Repository) (now t₁ t₂ : Int) (h : t₂ ≤ t₁) :
    Repository.activity_score { r with pushed_at := some t₂ } now
      ≤ Repository.activity_score { r with pushed_at := some t₁ } now := by
  simp only [Repository.activity_score]
  split_ifs <;> try norm_num
  all_goals omega

/-- C8: for two repositories identical except for `pushed_at`, the more
recently pushed one has a `stars × activity_score × min(issue_density, 1)`
priority score at least as large as the other's — activity_score is a
non-increasing step (1.0 ≤7d, 0.8 ≤30d, 0.5 ≤90d, else 0.2) and the other
two factors are equal and non-negative, so `get_top_repositories`, which
sorts by this key descending, ranks it at least as high. -/
theorem more_recent_push_ranks_geq (now t₁ t₂ : Int) (r : Repository)
    (h : t₂ ≤ t₁) :
    repoPriorityScore now { r with pushed_at := some t₂ }
      ≤ repoPriorityScore now { r with pushed_at := some t₁ } := by
  have hact := activity_score_antitone r now t₁ t₂ h
  simp only [repoPriorityScore]
  have hs : (0 : ℚ) ≤ (r.stars : ℚ) := by positivity
  have hmin : (0 : ℚ) ≤ min ((r.open_issues_count : ℚ) / (max r.stars 1 : ℚ)) 1 :=
    le_min (by positivity) (by norm_num)
  exact mul_le_mul_of_nonneg_right (mul_le_mul_of_nonneg_left hact hs) hmin

/-- Witness for C8 at a concrete pair: `repoA` pushed 5 days ago versus the
same repository pushed 100 days ago. -/
theorem more_recent_push_ranks_geq_witness :
    repoPriorityScore 100 { repoA with pushed_at := some 0 }
      ≤ repoPriorityScore 100 { repoA with pushed_at := some 95 } :=
  more_recent_push_ranks_geq 100 95 0 repoA (by norm_num)

/-! ### Shared facts about the sort and the issue-collection loop -/

/-- Inserting preserves `countP` (one more occurrence of `x`). -/
lemma countP_insertDescBy {α : Type} (f : α → ℚ) (p : α → Bool) (x : α) :
    ∀ l : List α, (insertDescBy f x l).countP p = ((x :: l).countP p) := by
  intro l
  induction l with
  | nil => rfl
  | cons y ys ih =>
    unfold insertDescBy
    split
    · rfl
    · rw [List.countP_cons, ih, List.countP_cons, List.countP_cons, List.countP_cons]
      ring

/-- The descending sort is a permutation as far as `countP` can tell. -/
lemma countP_sortDescBy {α : Type} (f : α → ℚ) (p : α → Bool) :
    ∀ l : List α, (sortDescBy f l).countP p = l.countP p := by
  intro l
  induction l with
  | nil => rfl
  | cons x xs ih =>
    unfold sortDescBy
    rw [countP_insertDescBy, List.countP_cons, List.countP_cons, ih]

/-- The label-batch loop never grows the accumulator beyond `max_issues`,
provided each query answers with at most the requested page size. -/
lemma labelBatchLoop_length
    (client : Option (List String) → Nat → Except ApiError (List Issue))
    (max_issues : Nat)
    (hc : ∀ lbls n l, client lbls n = Except.ok l → l.length ≤ n) :
    ∀ (batches : List (List String)) (acc : List Issue),
      acc.length ≤ max_issues →
      (labelBatchLoop client max_issues batches acc).length ≤ max_issues := by
  intro batches
  induction batches with
  | nil => intro acc ha; exact ha
  | cons b rest ih =>
    intro acc ha
    unfold labelBatchLoop
    split
    · exact ha
    next hlt =>
      cases hcall : client (some b) (max_issues - acc.length) with
      | ok fetched =>
        refine ih (acc ++ fetched) ?_
        have hf := hc _ _ _ hcall
        rw [List.length_append]
        omega
      | error e => exact ih acc ha

/-- The unlabeled query never grows the list beyond `max_issues` either. -/
lemma unlabeledStep_length
    (client : Option (List String) → Nat → Except ApiError (List Issue))
    (max_issues : Nat) (include_unlabeled : Bool) (issues : List Issue)
    (hc : ∀ lbls n l, client lbls n = Except.ok l → l.length ≤ n)
    (h : issues.length ≤ max_issues) :
    (unlabeledStep client max_issues include_unlabeled issues).length ≤ max_issues := by
  unfold unlabeledStep
  split
  next hcond =>
    have hlt : issues.length < max_issues := by
      rcases Bool.and_eq_true_iff.mp hcond with ⟨h1, -⟩
      simpa using h1
    split
    next fetched hcall =>
      have hf := hc _ _ _ hcall
      have hfil := List.length_filter_le
        (fun i => !(issues.map Issue.id).contains i.id) fetched
      rw [List.length_append]
      omega
    next e hcall => exact h
  · exact h

/-- Every issue produced by the label-batch loop comes from the
accumulator or from some successful client answer. -/
lemma mem_labelBatchLoop
    (client : Option (List String) → Nat → Except ApiError (List Issue))
    (max_issues : Nat) :
    ∀ (batches : List (List String)) (acc : List Issue) (i : Issue),
      i ∈ labelBatchLoop client max_issues batches acc →
        i ∈ acc ∨ ∃ lbls n l, client lbls n = Except.ok l ∧ i ∈ l := by
  intro batches
  induction batches with
  | nil => intro acc i h; exact Or.inl h
  | cons b rest ih =>
    intro acc i h
    unfold labelBatchLoop at h
    split at h
    · exact Or.inl h
    · split at h
      next fetched hcall =>
        rcases ih _ i h with hmem | hex
        · rcases List.mem_append.mp hmem with h1 | h2
          · exact Or.inl h1
          · exact Or.inr ⟨some b, max_issues - acc.length, fetched, hcall, h2⟩
        · exact Or.inr hex
      next e hcall => exact ih _ i h

/-- Every issue produced by the unlabeled step comes from the collected
list or from a successful client answer. -/
lemma mem_unlabeledStep
    (client : Option (List String) → Nat → Except ApiError (List Issue))
    (max_issues : Nat) (include_unlabeled : Bool) (issues : List Issue)
    (i : Issue) (h : i ∈ unlabeledStep client max_issues include_unlabeled issues) :
    i ∈ issues ∨ ∃ lbls n l, client lbls n = Except.ok l ∧ i ∈ l := by
  unfold unlabeledStep at h
  split at h
  · split at h
    next fetched hcall =>
      rcases List.mem_append.mp h with h1 | h2
      · exact Or.inl h1
      · exact Or.inr ⟨none, max_issues - issues.length, fetched,
          hcall, List.mem_of_mem_filter h2⟩
    next e hcall => exact Or.inl h
  · exact Or.inl h

/-- The embedded GitHub client honours the requested page size. -/
lemma pipelineClient_ok_length
    (streams : String → String → Except ApiError (List ApiIssue))
    (repoIds : String → Nat) (name : String)
    (lbls : Option (List String)) (n : Nat) (l : List Issue)
    (h : pipelineClient streams repoIds name lbls n = Except.ok l) :
    l.length ≤ n := by
  unfold pipelineClient getRepositoryIssues at h
  split at h
  · cases h
  · cases h; exact Nat.zero_le n
  · cases h
    rw [List.length_map]
    exact List.length_take_le _ _

/-- Every record the embedded client answers with is stamped with the
repository name it was asked about. -/
lemma pipelineClient_ok_stamp
    (streams : String → String → Except ApiError (List ApiIssue))
    (repoIds : String → Nat) (name : String)
    (lbls : Option (List String)) (n : Nat) (l : List Issue)
    (h : pipelineClient streams repoIds name lbls n = Except.ok l) :
    ∀ i ∈ l, i.repo_full_name = name := by
  unfold pipelineClient getRepositoryIssues at h
  split at h
  · cases h
  · cases h; intro i hi; cases hi
  · cases h
    intro i hi
    obtain ⟨a, -, ha⟩ := List.mem_map.mp hi
    rw [← ha]
    rfl

/-- Everything `_get_repository_issues` collects through the embedded
client carries that repository's name. -/
lemma getRepositoryIssuesForRepo_stamp
    (streams : String → String → Except ApiError (List ApiIssue))
    (repoIds : String → Nat) (name : String)
    (max_issues : Nat) (include_unlabeled : Bool) :
    ∀ i ∈ getRepositoryIssuesForRepo (pipelineClient streams repoIds name)
        max_issues include_unlabeled,
      i.repo_full_name = name := by
  intro i h
  unfold getRepositoryIssuesForRepo at h
  rcases mem_unlabeledStep _ _ _ _ i h with hloop | ⟨lbls, n, l, hcall, hil⟩
  · rcases mem_labelBatchLoop _ _ _ _ i hloop with hnil | ⟨lbls, n, l, hcall, hil⟩
    · cases hnil
    · exact pipelineClient_ok_stamp streams repoIds name lbls n l hcall i hil
  · exact pipelineClient_ok_stamp streams repoIds name lbls n l hcall i hil

/-- Per-repository cap for `_get_repository_issues` under the embedded
client. -/
lemma getRepositoryIssuesForRepo_pipeline_length
    (streams : String → String → Except ApiError (List ApiIssue))
    (repoIds : String → Nat) (name : String)
    (max_issues : Nat) (include_unlabeled : Bool) :
    (getRepositoryIssuesForRepo (pipelineClient streams repoIds name)
        max_issues include_unlabeled).length ≤ max_issues := by
  unfold getRepositoryIssuesForRepo
  refine unlabeledStep_length _ _ _ _
    (fun lbls n l h => pipelineClient_ok_length streams repoIds name lbls n l h) ?_
  exact labelBatchLoop_length _ _
    (fun lbls n l h => pipelineClient_ok_length streams repoIds name lbls n l h)
    labelBatches [] (Nat.zero_le _)

/-- Across a duplicate-free repository list, the concatenated collection
holds at most `max_issues` records for any single repository name. -/
lemma countP_flatMap_le
    (streams : String → String → Except ApiError (List ApiIssue))
    (repoIds : String → Nat) (max_issues : Nat) (include_unlabeled : Bool)
    (name : String) :
    ∀ repos : List Repository, (repos.map Repository.full_name).Nodup →
      ((repos.flatMap (fun r =>
          getRepositoryIssuesForRepo (pipelineClient streams repoIds r.full_name)
            max_issues include_unlabeled)).countP
        (fun i => i.repo_full_name == name)) ≤ max_issues := by
  intro repos
  induction repos with
  | nil => intro _; simp
  | cons r rest ih =>
    intro hnodup
    rw [List.flatMap_cons, List.countP_append]
    rw [List.map_cons, List.nodup_cons] at hnodup
    by_cases hname : r.full_name = name
    · have hrest : ((rest.flatMap (fun r =>
          getRepositoryIssuesForRepo (pipelineClient streams repoIds r.full_name)
            max_issues include_unlabeled)).countP
            (fun i => i.repo_full_name == name)) = 0 := by
        refine List.countP_eq_zero.mpr (fun i hi hip => ?_)
        obtain ⟨r', hr', hir'⟩ := List.mem_flatMap.mp hi
        have hst := getRepositoryIssuesForRepo_stamp streams repoIds r'.full_name
          max_issues include_unlabeled i hir'
        have : r'.full_name = name := hst ▸ beq_iff_eq.mp hip
        exact hnodup.1 (hname ▸ this ▸ List.mem_map_of_mem Repository.full_name hr')
      have hchunk := (List.countP_le_length (fun i => i.repo_full_name == name)
        (l := getRepositoryIssuesForRepo (pipelineClient streams repoIds r.full_name)
          max_issues include_unlabeled)).trans
        (getRepositoryIssuesForRepo_pipeline_length streams repoIds r.full_name
          max_issues include_unlabeled)
      omega
    · have hchunk : ((getRepositoryIssuesForRepo
          (pipelineClient streams repoIds r.full_name)
          max_issues include_unlabeled).countP
            (fun i => i.repo_full_name == name)) = 0 := by
        refine List.countP_eq_zero.mpr (fun i hi hip => ?_)
        have hst := getRepositoryIssuesForRepo_stamp streams repoIds r.full_name
          max_issues include_unlabeled i hi
        exact hname (hst ▸ beq_iff_eq.mp hip)
      have := ih hnodup.2
      omega

/-! ### C9 — the per-repository issue cap is respected -/

/-- C9: (a) whenever each underlying issue query answers with at most the
requested `per_page` records, the collection loop of
`_get_repository_issues` (label batches, then the optional unlabeled
query) returns at most `max_issues` issues; (b) consequently, over any
duplicate-free repository list, `discover_issues` outputs at most
`max_issues_per_repo` issues carrying any single repository name. -/
theorem issue_cap_respected :
    (∀ (client : Option (List String) → Nat → Except ApiError (List Issue))
        (max_issues : Nat) (include_unlabeled : Bool),
        (∀ lbls n l, client lbls n = Except.ok l → l.length ≤ n) →
        (getRepositoryIssuesForRepo client max_issues include_unlabeled).length
          ≤ max_issues)
      ∧ ∀ (streams : String → String → Except ApiError (List ApiIssue))
          (repoIds : String → Nat) (repos : List Repository)
          (max_issues_per_repo : Nat) (include_unlabeled : Bool)
          (now : Int) (name : String),
          (repos.map Repository.full_name).Nodup →
          ((discoverIssues streams repoIds repos max_issues_per_repo
              include_unlabeled now).countP
            (fun i => i.repo_full_name == name)) ≤ max_issues_per_repo := by
  constructor
  · intro client max_issues include_unlabeled hc
    unfold getRepositoryIssuesForRepo
    exact unlabeledStep_length _ _ _ _ hc
      (labelBatchLoop_length _ _ hc labelBatches [] (Nat.zero_le _))
  · intro streams repoIds repos maxI incl now name hnodup
    unfold discoverIssues filterAndPrioritizeIssues
    rw [countP_sortDescBy]
    refine le_trans (((List.filter_sublist _).countP_le _)) ?_
    exact countP_flatMap_le streams repoIds maxI incl name repos hnodup

/-- Witness for C9: the embedded client honours page sizes, and a concrete
one-repository run stays within the cap. -/
theorem issue_cap_respected_witness :
    (getRepositoryIssuesForRepo (pipelineClient streams0 repoIds0 "acme/widgets")
        10 true).length ≤ 10
      ∧ ((discoverIssues streams0 repoIds0 [repoA] 10 false 100).countP
          (fun i => i.repo_full_name == "acme/widgets")) ≤ 10 :=
  ⟨issue_cap_respected.1 (pipelineClient streams0 repoIds0 "acme/widgets") 10 true
      (fun lbls n l h => pipelineClient_ok_length streams0 repoIds0 "acme/widgets" lbls n l h),
   issue_cap_respected.2 streams0 repoIds0 [repoA] 10 false 100 "acme/widgets"
      (by decide)⟩

/-! ### C4 — label batches are NOT deduplicated against each other -/

/-- C4 counterexample: with one suitable open issue (id 1) in the feed and
the per-repository cap 10, every one of the six label-batch queries
returns that same issue (the client ignores labels), the loop appends all
of them, and `discover_issues` outputs id 1 six times — the output is not
duplicate-free. -/
theorem discover_issues_emits_duplicates :
    ((discoverIssues streams0 repoIds0 [repoA] 10 false 100).countP
      (fun i => i.id == 1)) = 6 := by
  unfold discoverIssues filterAndPrioritizeIssues
  rw [countP_sortDescBy]
  decide

/-- C4 amended: only the unlabeled query deduplicates, and only against
the ids already collected for that repository — appending it never adds a
record whose id was already collected; issues gathered by different label
batches are not deduplicated against each other, so `discover_issues`
output can contain an issue id more than once. -/
theorem unlabeled_query_dedups_against_collected
    (client : Option (List String) → Nat → Except ApiError (List Issue))
    (max_issues : Nat) (include_unlabeled : Bool) (issues : List Issue)
    (n : Nat) (h : n ∈ issues.map Issue.id) :
    ((unlabeledStep client max_issues include_unlabeled issues).countP
        (fun i => i.id == n))
      = issues.countP (fun i => i.id == n) := by
  unfold unlabeledStep
  split
  · split
    next fetched hcall =>
      rw [List.countP_append]
      have hzero : ((fetched.filter
          (fun i => !(issues.map Issue.id).contains i.id)).countP
            (fun i => i.id == n)) = 0 := by
        refine List.countP_eq_zero.mpr (fun i hi hip => ?_)
        have hpred := List.of_mem_filter hi
        rw [Bool.not_eq_true'] at hpred
        have hnm : i.id ∉ issues.map Issue.id := by
          intro hm
          have hc2 : (issues.map Issue.id).contains i.id = true :=
            List.elem_iff.mpr hm
          rw [hc2] at hpred
          cases hpred
        exact hnm (beq_iff_eq.mp hip ▸ h)
      omega
    next e hcall => rfl
  · rfl

/-- Witness for the amended C4: the unlabeled query drops a record whose
id (1) is already collected, leaving the count unchanged. -/
theorem unlabeled_query_dedups_against_collected_witness :
    ((unlabeledStep (fun _ n => Except.ok ([issue1].take n)) 10 true [issue1]).countP
        (fun i => i.id == 1))
      = ([issue1].countP (fun i => i.id == 1)) :=
  unlabeled_query_dedups_against_collected
    (fun _ n => Except.ok ([issue1].take n)) 10 true [issue1] 1 (by decide)

end PRPirate
